import Mathlib

/-!
# Verification of the gosip SIP server core

Shallow embedding of the gosip repository: the server's request/response
preparation pipeline (`server.go`), the transport connection error wrapping
(`transport/connection.go`), the parser buffer (`sip/parser/parserbuffer.go`)
and the test mocks (`testutils/mocks.go`).

Go maps become association lists, Go interface method sets become records,
and the external socket (`net.Conn`) is modelled by its documented behaviour
where a claim depends on it.
-/

namespace Gosip

/-! ## SIP message model

The `sip` package itself is not part of the sources; the pieces below are the
fragments the server code under verification uses: a request method is a
string tag, a message carries an ordered header list, and the server only
constructs `GenericHeader`, `SupportedHeader` and reads `CSeq`. -/

/-- Go `sip.RequestMethod` is a string type in the source. -/
abbrev RequestMethod := String

def INVITE : RequestMethod := "INVITE"

def ACK : RequestMethod := "ACK"

def CANCEL : RequestMethod := "CANCEL"

def BYE : RequestMethod := "BYE"

def REGISTER : RequestMethod := "REGISTER"

def OPTIONS : RequestMethod := "OPTIONS"

def REFER : RequestMethod := "REFER"

def NOTIFY : RequestMethod := "NOTIFY"

/-- The value of a `CSeq` header: sequence number and method name. -/
structure CSeqValue where
  seqNo : Nat
  methodName : RequestMethod
deriving Repr, DecidableEq

/-- The header shapes the server code manipulates: `sip.GenericHeader`
(name/contents), `sip.SupportedHeader` (option tokens) and the typed `CSeq`
header consulted by `prepareResponse`. -/
inductive Header where
  | generic (headerName : String) (contents : String)
  | supported (options : List String)
  | cseq (value : CSeqValue)
deriving Repr, DecidableEq

/-- The header name a header answers to in `GetHeaders` lookups. -/
def Header.name : Header → String
  | .generic n _ => n
  | .supported _ => "Supported"
  | .cseq _ => "CSeq"

/-- Go `msg.GetHeaders(name)`: all headers with the given name, in order. -/
def getHeadersByName (hs : List Header) (n : String) : List Header :=
  hs.filter (fun h => h.name == n)

/-- Go `sip.Request`: method plus ordered header list (the body plays no role in
the claims under verification). -/
structure Request where
  method : RequestMethod
  headers : List Header
deriving Repr, DecidableEq

def Request.GetHeaders (req : Request) (n : String) : List Header :=
  getHeadersByName req.headers n

/-- Go `req.AppendHeader(h)` appends at the end of the ordered header list. -/
def Request.AppendHeader (req : Request) (h : Header) : Request :=
  { req with headers := req.headers ++ [h] }

/-- Go `req.IsAck()`: the method is ACK. -/
def Request.IsAck (req : Request) : Bool :=
  req.method == ACK

/-- Go `sip.Response`: status code, reason phrase, ordered header list. -/
structure Response where
  statusCode : Nat
  reason : String
  headers : List Header
deriving Repr, DecidableEq

def Response.GetHeaders (res : Response) (n : String) : List Header :=
  getHeadersByName res.headers n

def Response.AppendHeader (res : Response) (h : Header) : Response :=
  { res with headers := res.headers ++ [h] }

/-- Go `res.CSeq()`: the first `CSeq` header, if any (`ok = false` otherwise). -/
def Response.cseqValue (res : Response) : Option CSeqValue :=
  res.headers.findSome? (fun h =>
    match h with
    | .cseq v => some v
    | _ => none)

/-- Replace the first header named `n` by `h2`, leaving the rest alone.  This
is how the in-place mutation `hdrs[0].Contents = ...` of the Go code acts on
the ordered header list. -/
def setFirstHeader : List Header → String → Header → List Header
  | [], _, _ => []
  | h :: t, n, h2 => if h.name == n then h2 :: t else h :: setFirstHeader t n h2

/-- Modelled from the spec: `sip.NewResponseFromRequest` lives in the `sip`
package, which is absent from the sources.  Per the spec's data model (§3) a
response built from a request echoes the request's Via stack, From, To,
Call-ID and CSeq headers; the status code and reason are the ones given. -/
def NewResponseFromRequest (req : Request) (statusCode : Nat) (reason : String) : Response :=
  { statusCode := statusCode
    reason := reason
    headers := req.headers.filter (fun h =>
      ["Via", "From", "To", "Call-ID", "CSeq"].contains h.name) }

/-! ## Server (`server.go`) -/

/-- A registered request callback.  Go compares handlers only through stack
addresses (see `OnRequest`), never through the function value, so a handler is
identified here by an opaque id. -/
abbrev RequestHandler := Nat

/-- The server state the claims touch: the atomic `inShutdown` counter, the
`requestHandlers` map (association list with unique keys, like a Go map), the
configured extension tokens and the requests/responses already handed to the
transaction layer. -/
structure Server where
  inShutdown : Int
  requestHandlers : List (RequestMethod × List RequestHandler)
  extensions : List String
  txRequests : List Request
  txResponses : List Response
deriving Repr, DecidableEq

/-- Go `srv.requestHandlers[method]` with its `ok` flag. -/
def Server.handlersFor (srv : Server) (m : RequestMethod) : Option (List RequestHandler) :=
  (srv.requestHandlers.find? (fun p => p.fst == m)).map Prod.snd

/-- Go `srv.shuttingDown()`: the atomic counter is non-zero. -/
def Server.shuttingDown (srv : Server) : Bool :=
  srv.inShutdown != 0

/-- Go `srv.getAllowedMethods()`: INVITE, ACK, CANCEL followed by every
registered method not already among those three (the Go `added` set). -/
def Server.getAllowedMethods (srv : Server) : List RequestMethod :=
  [INVITE, ACK, CANCEL] ++
    (srv.requestHandlers.map Prod.fst).filter
      (fun m => !(m == INVITE || m == ACK || m == CANCEL))

/-- The methods `prepareRequest` auto-decorates (the Go `autoAppendMethods`
map literal). -/
def autoAppendRequestMethods : List RequestMethod := [INVITE, REGISTER, REFER, NOTIFY]

/-- Go `srv.prepareRequest(req)`: on INVITE/REGISTER/REFER/NOTIFY append an
`Allow` header (joined allowed methods) when absent and a `Supported` header
(configured extensions) when absent; on every method append a `User-Agent:
GoSIP` header when absent. -/
def Server.prepareRequest (srv : Server) (req : Request) : Request :=
  let req1 :=
    if autoAppendRequestMethods.contains req.method then
      let reqA :=
        if (req.GetHeaders "Allow").isEmpty then
          req.AppendHeader (.generic "Allow"
            (String.intercalate ", " srv.getAllowedMethods))
        else req
      if (reqA.GetHeaders "Supported").isEmpty then
        reqA.AppendHeader (.supported srv.extensions)
      else reqA
    else req
  if (req1.GetHeaders "User-Agent").isEmpty then
    req1.AppendHeader (.generic "User-Agent" "GoSIP")
  else req1

/-- Go `srv.prepareResponse(res)`: when the response has a `CSeq` whose method is
OPTIONS, set the `Allow` header to the joined allowed methods (appending it if
absent, overwriting the first one otherwise) and likewise force the
`Supported` header to the configured extensions. -/
def Server.prepareResponse (srv : Server) (res : Response) : Response :=
  match res.cseqValue with
  | none => res
  | some cseq =>
    let methodsStr := String.intercalate ", " srv.getAllowedMethods
    if cseq.methodName == OPTIONS then
      let resA :=
        if (res.GetHeaders "Allow").isEmpty then
          res.AppendHeader (.generic "Allow" methodsStr)
        else { res with headers := setFirstHeader res.headers "Allow" (.generic "Allow" methodsStr) }
      if (resA.GetHeaders "Supported").isEmpty then
        resA.AppendHeader (.supported srv.extensions)
      else { resA with headers := setFirstHeader resA.headers "Supported" (.supported srv.extensions) }
    else res

/-- Go `srv.Request(req)`: rejected with an error while shutting down, otherwise
the prepared request is handed to the transaction layer.  The pair returns
the error (if any) together with the resulting server state. -/
def Server.Request (srv : Server) (req : Request) : Option String × Server :=
  if srv.shuttingDown then
    (some "can not send through stopped server", srv)
  else
    (none, { srv with txRequests := srv.txRequests ++ [srv.prepareRequest req] })

/-- Go `srv.Respond(res)`: rejected with an error while shutting down, otherwise
the prepared response is handed to the transaction layer. -/
def Server.Respond (srv : Server) (res : Response) : Option String × Server :=
  if srv.shuttingDown then
    (some "can not send through stopped server", srv)
  else
    (none, { srv with txResponses := srv.txResponses ++ [srv.prepareResponse res] })

/-- What `srv.handleRequest(req)` decides to do with an inbound request. -/
inductive HandleAction where
  | invoke (hs : List RequestHandler)
  | ignore
  | respond (res : Response)
deriving Repr, DecidableEq

/-- Go `srv.handleRequest(req)`: run the registered handlers when the method has
some, silently ignore an ACK, otherwise respond 405 Method Not Allowed built
from the request. -/
def Server.handleRequest (srv : Server) (req : Gosip.Request) : HandleAction :=
  match srv.handlersFor req.method with
  | some hs => .invoke hs
  | none =>
    if req.IsAck then .ignore
    else .respond (NewResponseFromRequest req 405 "Method Not Allowed")

/-- The handlers actually invoked on a request (empty when none run). -/
def Server.invocations (srv : Server) (req : Gosip.Request) : List RequestHandler :=
  match srv.handleRequest req with
  | .invoke hs => hs
  | _ => []

/-- Go map assignment `m[k] = v` on the association-list model. -/
def mapSet : List (RequestMethod × List RequestHandler) → RequestMethod →
    List RequestHandler → List (RequestMethod × List RequestHandler)
  | [], m, v => [(m, v)]
  | (k, w) :: t, m, v => if k == m then (m, v) :: t else (k, w) :: mapSet t m v

/-- The Go duplicate check compares `&h == &handler`: the address of the
per-iteration copy `h` against the address of the parameter `handler`.  Those
are two distinct, simultaneously live stack slots, so the comparison can never
be true; the two slots are embedded as the distinct addresses 0 and 1. -/
def addrOfLoopCopy : Nat := 0

def addrOfParam : Nat := 1

/-- Go `srv.OnRequest(method, handler)`: scan the method's handler list with the
address comparison above, error on a hit, otherwise append the handler. -/
def Server.OnRequest (srv : Server) (m : RequestMethod) (handler : RequestHandler) :
    Option String × Server :=
  let handlers := (srv.handlersFor m).getD []
  if handlers.any (fun _ => addrOfLoopCopy == addrOfParam) then
    (some ("handler already binded to " ++ m ++ " method"), srv)
  else
    (none, { srv with requestHandlers := mapSet srv.requestHandlers m (handlers ++ [handler]) })

/-! ## Transport connection (`transport/connection.go`)

The `connection` type wraps one socket.  The socket itself (`net.Conn`) is
external, so each I/O method is embedded as a function of the base call's
outcome; the error-wrapping logic around that outcome is the code under
verification. -/

/-- The fields every `&ConnectionError{...}` composite literal in the source
fills positionally; the declaration itself is outside the sources, the field
meanings are the spec's `{op, network, raddr, laddr, connection-id}`. -/
structure ConnectionError where
  err : String
  op : String
  net : String
  raddr : String
  laddr : String
  connId : String
deriving Repr, DecidableEq

/-- Modelled from Go's documented `net.Conn` behaviour (the socket type is
external to the repository): `Close` on an already-closed connection returns
the `use of closed network connection` error, otherwise it closes and
succeeds. -/
structure NetConnState where
  closed : Bool
deriving Repr, DecidableEq

def netConnClose (b : NetConnState) : Option String × NetConnState :=
  if b.closed then (some "use of closed network connection", b)
  else (none, { closed := true })

/-- The `connection` struct: base socket state plus the cached addresses and
the `conn.String()` identifier used in error context.  It holds no
closed-flag of its own. -/
structure Connection where
  base : NetConnState
  network : String
  laddr : String
  raddr : String
  connId : String
deriving Repr, DecidableEq

/-- Go `conn.Read(buf)`: the base read outcome `(num, err)` is passed in; an
error is wrapped with op `read`, the network, the connection's remote and
local addresses and the connection identifier. -/
def Connection.Read (c : Connection) (base : Nat × Option String) : Nat × Option ConnectionError :=
  match base with
  | (n, none) => (n, none)
  | (n, some e) => (n, some ⟨e, "read", c.network, c.raddr, c.laddr, c.connId⟩)

/-- Go `conn.ReadFrom(buf)`: like `Read` but the remote address in the error
context is the per-datagram source address returned by the base call. -/
def Connection.ReadFrom (c : Connection) (base : Nat × String × Option String) :
    Nat × String × Option ConnectionError :=
  match base with
  | (n, raddr, none) => (n, raddr, none)
  | (n, raddr, some e) => (n, raddr, some ⟨e, "read", c.network, raddr, c.laddr, c.connId⟩)

/-- Go `conn.Write(buf)`: an error is wrapped with op `write` and the
connection's remote and local addresses. -/
def Connection.Write (c : Connection) (base : Nat × Option String) : Nat × Option ConnectionError :=
  match base with
  | (n, none) => (n, none)
  | (n, some e) => (n, some ⟨e, "write", c.network, c.raddr, c.laddr, c.connId⟩)

/-- Go `conn.WriteTo(buf, raddr)`: like `Write` with the explicit destination
address in the error context. -/
def Connection.WriteTo (c : Connection) (raddr : String) (base : Nat × Option String) :
    Nat × Option ConnectionError :=
  match base with
  | (n, none) => (n, none)
  | (n, some e) => (n, some ⟨e, "write", c.network, raddr, c.laddr, c.connId⟩)

/-- Go `conn.Close()`: forwards to the base socket's `Close`; an error is wrapped
with op `close`, the network and the connection identifier, and with *empty
strings* in the remote- and local-address slots (source lines 597-616). -/
def Connection.Close (c : Connection) : Option ConnectionError × Connection :=
  match netConnClose c.base with
  | (none, b) => (none, { c with base := b })
  | (some e, b) => (some ⟨e, "close", c.network, "", "", c.connId⟩, { c with base := b })

/-- The context the spec says every connection I/O error carries: the cause
plus `{op, network, raddr, laddr, connection-id}` of the operation. -/
def wrapsFullContext (e : ConnectionError) (c : Connection) (op : String)
    (raddr : String) (cause : String) : Prop :=
  e.err = cause ∧ e.op = op ∧ e.net = c.network ∧
    e.raddr = raddr ∧ e.laddr = c.laddr ∧ e.connId = c.connId

/-! ## Parser buffer (`sip/parser/parserbuffer.go`)

`NextChunk(n)` loops calling `pb.reader.Read(data[total:])` until `total = n`.
The underlying `bufio.Reader` is a blocking reader: each call delivers at
least one byte (when the stream holds one) and at most the requested count.
The sizes the reader happens to deliver are passed in as a schedule. -/

/-- One base `Read` into a buffer of capacity `want`: the reader delivers
`r` clamped to at least 1 (blocking until a byte exists), at most `want` and
at most what the stream still holds. -/
def readStep (r want streamLen : Nat) : Nat :=
  min (min (max r 1) want) streamLen

/-- The `NextChunk` read loop: `need` bytes remain to be read from `stream`,
`reads` schedules the base reader's delivery sizes.  Returns the bytes read
and the remaining stream, or `none` when the schedule runs out or the stream
is exhausted (the error return path of the Go loop). -/
def nextChunkLoop : List Nat → List Nat → Nat → Option (List Nat × List Nat)
  | _, stream, 0 => some ([], stream)
  | [], _, _ + 1 => none
  | r :: rs, stream, need + 1 =>
    let k := readStep r (need + 1) stream.length
    if k = 0 then none
    else
      match nextChunkLoop rs (stream.drop k) (need + 1 - k) with
      | some (chunk, rest) => some (stream.take k ++ chunk, rest)
      | none => none

/-- Go `pb.NextChunk(n)` on a buffer currently holding `stream`. -/
def NextChunk (reads : List Nat) (stream : List Nat) (n : Nat) :
    Option (List Nat × List Nat) :=
  nextChunkLoop reads stream n

/-! ## Test mocks (`testutils/mocks.go`) -/

/-- A `net.Addr` as the mocks use it: network tag and address string. -/
structure Addr where
  net : String
  addr : String
deriving Repr, DecidableEq

/-- Go `MockConn`: an embedded `net.Conn` (represented by the two addresses it
would report) plus the overriding `LAddr`/`RAddr` fields, `nil` as `none`. -/
structure MockConn where
  connLocal : Addr
  connRemote : Addr
  LAddr : Option Addr
  RAddr : Option Addr
deriving Repr, DecidableEq

/-- Go `conn.LocalAddr()`: the override when set, else the embedded
connection's local address (`conn.Conn.LocalAddr()`). -/
def MockConn.LocalAddr (c : MockConn) : Addr :=
  match c.LAddr with
  | none => c.connLocal
  | some a => a

/-- Go `conn.RemoteAddr()` (mocks.go lines 87-92): when `RAddr` is nil the body
calls `conn.RemoteAddr()` — the method itself, not the embedded
`conn.Conn.RemoteAddr()` — so the call recurses into itself.  Embedded with
explicit fuel: `none` means the computation has not produced a value within
`fuel` recursive calls. -/
def MockConn.RemoteAddrFuel : Nat → MockConn → Option Addr
  | 0, _ => none
  | fuel + 1, c =>
    match c.RAddr with
    | none => MockConn.RemoteAddrFuel fuel c
    | some a => some a

/-! ## Helper lemmas -/

theorem getHeaders_appendHeader (req : Request) (h : Header) (n : String) :
    (req.AppendHeader h).GetHeaders n =
      req.GetHeaders n ++ if h.name == n then [h] else [] := by
  simp only [Request.AppendHeader, Request.GetHeaders, getHeadersByName, List.filter_append]
  cases hn : (h.name == n) <;> simp [List.filter, hn]

theorem getHeaders_appendHeader_response (res : Response) (h : Header) (n : String) :
    (res.AppendHeader h).GetHeaders n =
      res.GetHeaders n ++ if h.name == n then [h] else [] := by
  simp only [Response.AppendHeader, Response.GetHeaders, getHeadersByName, List.filter_append]
  cases hn : (h.name == n) <;> simp [List.filter, hn]

theorem method_appendHeader (req : Request) (h : Header) :
    (req.AppendHeader h).method = req.method := rfl

theorem getHeaders_setFirstHeader_ne (hs : List Header) (n m : String) (h2 : Header)
    (hname : h2.name = n) (hnm : m ≠ n) :
    getHeadersByName (setFirstHeader hs n h2) m = getHeadersByName hs m := by
  induction hs with
  | nil => rfl
  | cons hd tl ih =>
    by_cases hhd : hd.name = n
    · have hb : (hd.name == n) = true := by simp [hhd]
      have hm2 : (h2.name == m) = false := by simp [hname]; exact fun e => hnm e.symm
      have hmhd : (hd.name == m) = false := by
        simp [hhd]; exact fun e => hnm e.symm
      simp [setFirstHeader, hb, getHeadersByName, List.filter, hm2, hmhd]
    · have hb : (hd.name == n) = false := by simp [hhd]
      simp only [setFirstHeader, hb, if_neg, Bool.false_eq_true, not_false_iff]
      simp only [getHeadersByName, List.filter] at ih ⊢
      cases hmhd : (hd.name == m) <;> simp [hmhd, ih]

theorem getHeaders_setFirstHeader_head (hs : List Header) (n : String) (h2 : Header)
    (hname : h2.name = n) (hne : getHeadersByName hs n ≠ []) :
    (getHeadersByName (setFirstHeader hs n h2) n).head? = some h2 := by
  induction hs with
  | nil => simp [getHeadersByName] at hne
  | cons hd tl ih =>
    by_cases hhd : hd.name = n
    · have hb : (hd.name == n) = true := by simp [hhd]
      have hb2 : (h2.name == n) = true := by simp [hname]
      simp [setFirstHeader, hb, getHeadersByName, List.filter, hb2]
    · have hb : (hd.name == n) = false := by simp [hhd]
      simp only [getHeadersByName, List.filter, hb] at hne ⊢
      simp only [setFirstHeader, hb, if_neg, Bool.false_eq_true, not_false_iff]
      simp only [List.filter, hb]
      exact ih hne

/-! ## Claim theorems -/

/-- C2: while the in-flight-shutdown counter is non-zero, `Server.Request`
and `Server.Respond` both return an error and leave the server state — in
particular everything handed to the transaction layer — unchanged. -/
theorem request_respond_rejected_during_shutdown (srv : Server) (req : Request)
    (res : Response) (h : srv.inShutdown ≠ 0) :
    srv.Request req = (some "can not send through stopped server", srv) ∧
    srv.Respond res = (some "can not send through stopped server", srv) := by
  have hs : srv.shuttingDown = true := by
    simp [Server.shuttingDown, h]
  exact ⟨by simp [Server.Request, hs], by simp [Server.Respond, hs]⟩

/-- Witness for C2 at a concrete shutting-down server. -/
theorem request_respond_rejected_during_shutdown_witness :
    ((1 : Int) ≠ 0) ∧
    (Server.Request ⟨1, [], [], [], []⟩ ⟨"INVITE", []⟩ =
      (some "can not send through stopped server", ⟨1, [], [], [], []⟩) ∧
     Server.Respond ⟨1, [], [], [], []⟩ ⟨200, "OK", []⟩ =
      (some "can not send through stopped server", ⟨1, [], [], [], []⟩)) :=
  ⟨by decide,
   request_respond_rejected_during_shutdown ⟨1, [], [], [], []⟩ ⟨"INVITE", []⟩
     ⟨200, "OK", []⟩ (by decide)⟩

theorem ua_empty_append (r : Request) (h : Header)
    (hn : (h.name == "User-Agent") = false)
    (hr : r.GetHeaders "User-Agent" = []) :
    (r.AppendHeader h).GetHeaders "User-Agent" = [] := by
  rw [getHeaders_appendHeader, hr, hn]
  simp

theorem prepareRequest_supported_helper (srv : Server) (req : Request)
    (hm : req.method = INVITE ∨ req.method = REGISTER ∨
      req.method = REFER ∨ req.method = NOTIFY)
    (hsup : req.GetHeaders "Supported" = []) :
    Header.supported srv.extensions ∈ (srv.prepareRequest req).headers := by
  have hc : autoAppendRequestMethods.contains req.method = true := by
    rcases hm with h | h | h | h <;>
      simp [autoAppendRequestMethods, h, INVITE, REGISTER, REFER, NOTIFY]
  have hsupA : ((if (req.GetHeaders "Allow").isEmpty then
      req.AppendHeader (.generic "Allow" (String.intercalate ", " srv.getAllowedMethods))
      else req).GetHeaders "Supported") = [] := by
    split
    · rw [getHeaders_appendHeader, hsup]
      simp [Header.name]
    · exact hsup
  unfold Server.prepareRequest
  rw [hc]
  simp only [if_true]
  rw [hsupA]
  simp only [List.isEmpty_nil, if_true]
  split <;> split <;> simp [Request.AppendHeader]

theorem prepareRequest_ua_helper (srv : Server) (req : Request)
    (hua : req.GetHeaders "User-Agent" = []) :
    Header.generic "User-Agent" "GoSIP" ∈ (srv.prepareRequest req).headers := by
  have h1 : ∀ r : Request, r.GetHeaders "User-Agent" = [] →
      Header.generic "User-Agent" "GoSIP" ∈
        (if (r.GetHeaders "User-Agent").isEmpty then
          r.AppendHeader (.generic "User-Agent" "GoSIP") else r).headers := by
    intro r hr
    rw [hr]
    simp [Request.AppendHeader]
  unfold Server.prepareRequest
  apply h1
  by_cases hb1 : autoAppendRequestMethods.contains req.method
  · rw [if_pos hb1]
    by_cases hb2 : (req.GetHeaders "Allow").isEmpty
    · rw [if_pos hb2]
      have hra : (req.AppendHeader (.generic "Allow"
          (String.intercalate ", " srv.getAllowedMethods))).GetHeaders "User-Agent" = [] :=
        ua_empty_append _ _ rfl hua
      simp only []
      split
      · exact ua_empty_append _ _ rfl hra
      · exact hra
    · rw [if_neg hb2]
      simp only []
      split
      · exact ua_empty_append _ _ rfl hua
      · exact hua
  · rw [if_neg hb1]
    exact hua

/-- C3: `prepareRequest` appends a `Supported` header holding the configured
extension tokens to an INVITE/REGISTER/REFER/NOTIFY request that lacks one,
and appends a `User-Agent: GoSIP` header to a request of any method that
lacks one. -/
theorem prepareRequest_appends_defaults (srv : Server) (req : Request) :
    ((req.method = INVITE ∨ req.method = REGISTER ∨
        req.method = REFER ∨ req.method = NOTIFY) →
      req.GetHeaders "Supported" = [] →
      Header.supported srv.extensions ∈ (srv.prepareRequest req).headers) ∧
    (req.GetHeaders "User-Agent" = [] →
      Header.generic "User-Agent" "GoSIP" ∈ (srv.prepareRequest req).headers) :=
  ⟨fun hm hsup => prepareRequest_supported_helper srv req hm hsup,
   fun hua => prepareRequest_ua_helper srv req hua⟩

/-- Witness for C3: a concrete INVITE request lacking both headers, and a
concrete OPTIONS request (not in the auto-append set) lacking User-Agent. -/
theorem prepareRequest_appends_defaults_witness :
    Header.supported ["100rel"] ∈
      (Server.prepareRequest ⟨0, [], ["100rel"], [], []⟩ ⟨"INVITE", []⟩).headers ∧
    Header.generic "User-Agent" "GoSIP" ∈
      (Server.prepareRequest ⟨0, [], ["100rel"], [], []⟩ ⟨"INVITE", []⟩).headers ∧
    Header.generic "User-Agent" "GoSIP" ∈
      (Server.prepareRequest ⟨0, [], ["100rel"], [], []⟩ ⟨"OPTIONS", []⟩).headers :=
  ⟨(prepareRequest_appends_defaults ⟨0, [], ["100rel"], [], []⟩ ⟨"INVITE", []⟩).1
      (Or.inl rfl) rfl,
   (prepareRequest_appends_defaults ⟨0, [], ["100rel"], [], []⟩ ⟨"INVITE", []⟩).2 rfl,
   (prepareRequest_appends_defaults ⟨0, [], ["100rel"], [], []⟩ ⟨"OPTIONS", []⟩).2 rfl⟩

/-- C5: `prepareRequest` returns a request that already carries `Allow`,
`Supported` and `User-Agent` headers completely unchanged. -/
theorem prepareRequest_preserves_complete_request (srv : Server) (req : Request)
    (h1 : req.GetHeaders "Allow" ≠ [])
    (h2 : req.GetHeaders "Supported" ≠ [])
    (h3 : req.GetHeaders "User-Agent" ≠ []) :
    srv.prepareRequest req = req := by
  have e1 : (req.GetHeaders "Allow").isEmpty = false := by
    cases hx : req.GetHeaders "Allow" with
    | nil => exact absurd hx h1
    | cons a l => simp
  have e2 : (req.GetHeaders "Supported").isEmpty = false := by
    cases hx : req.GetHeaders "Supported" with
    | nil => exact absurd hx h2
    | cons a l => simp
  have e3 : (req.GetHeaders "User-Agent").isEmpty = false := by
    cases hx : req.GetHeaders "User-Agent" with
    | nil => exact absurd hx h3
    | cons a l => simp
  unfold Server.prepareRequest
  by_cases hc : autoAppendRequestMethods.contains req.method <;>
    simp [hc, e1, e2, e3]

/-- Witness for C5 at a concrete request already carrying the three headers. -/
theorem prepareRequest_preserves_complete_request_witness :
    Server.prepareRequest ⟨0, [], [], [], []⟩
      ⟨"INVITE", [.generic "Allow" "INVITE", .supported [], .generic "User-Agent" "x"]⟩ =
      ⟨"INVITE", [.generic "Allow" "INVITE", .supported [], .generic "User-Agent" "x"]⟩ :=
  prepareRequest_preserves_complete_request ⟨0, [], [], [], []⟩
    ⟨"INVITE", [.generic "Allow" "INVITE", .supported [], .generic "User-Agent" "x"]⟩
    (by decide) (by decide) (by decide)

theorem find_mapSet (l : List (RequestMethod × List RequestHandler))
    (m : RequestMethod) (v : List RequestHandler) :
    (mapSet l m v).find? (fun p => p.fst == m) = some (m, v) := by
  induction l with
  | nil => simp [mapSet, List.find?]
  | cons kw t ih =>
    obtain ⟨k, w⟩ := kw
    by_cases hk : k = m
    · simp [mapSet, hk, List.find?]
    · have hb : (k == m) = false := by simp [hk]
      simp [mapSet, hb, List.find?, ih]

theorem handlersFor_mapSet (srv : Server) (m : RequestMethod) (v : List RequestHandler) :
    Server.handlersFor { srv with requestHandlers := mapSet srv.requestHandlers m v } m =
      some v := by
  simp [Server.handlersFor, find_mapSet]

/-- C9: `OnRequest` never reports a duplicate — the address comparison in its
scan can never hit — so it always succeeds and appends the handler, even when
the very same handler is registered for the method already; after registering
the same handler twice, a matching request invokes it twice (its invocation
count rises by exactly two). -/
theorem onRequest_always_appends (srv : Server) (m : RequestMethod)
    (h : RequestHandler) (req : Request) (hreq : req.method = m) :
    ∃ srv2 srv3,
      srv.OnRequest m h = (none, srv2) ∧
      srv2.handlersFor m = some ((srv.handlersFor m).getD [] ++ [h]) ∧
      srv2.OnRequest m h = (none, srv3) ∧
      srv3.handlersFor m = some ((srv.handlersFor m).getD [] ++ [h] ++ [h]) ∧
      (srv3.invocations req).count h = ((srv.handlersFor m).getD []).count h + 2 := by
  have hcmp : ∀ hs : List RequestHandler,
      (hs.any (fun _ => addrOfLoopCopy == addrOfParam)) = false := by
    intro hs
    simp [addrOfLoopCopy, addrOfParam]
  have h2f : Server.handlersFor
      { srv with requestHandlers :=
          (mapSet srv.requestHandlers m ((srv.handlersFor m).getD [] ++ [h])) } m =
      some ((srv.handlersFor m).getD [] ++ [h]) := handlersFor_mapSet srv m _
  have h3f : Server.handlersFor
      { srv with requestHandlers :=
          (mapSet (mapSet srv.requestHandlers m ((srv.handlersFor m).getD [] ++ [h])) m
            ((srv.handlersFor m).getD [] ++ [h] ++ [h])) } m =
      some ((srv.handlersFor m).getD [] ++ [h] ++ [h]) :=
    handlersFor_mapSet
      { srv with requestHandlers :=
          (mapSet srv.requestHandlers m ((srv.handlersFor m).getD [] ++ [h])) } m _
  refine ⟨_, _, ?_, h2f, ?_, h3f, ?_⟩
  · simp [Server.OnRequest, hcmp]
  · simp only [Server.OnRequest, hcmp, h2f]
    simp
  · have hinv : Server.handleRequest
        { srv with requestHandlers :=
            (mapSet (mapSet srv.requestHandlers m ((srv.handlersFor m).getD [] ++ [h])) m
              ((srv.handlersFor m).getD [] ++ [h] ++ [h])) } req =
        .invoke ((srv.handlersFor m).getD [] ++ [h] ++ [h]) := by
      simp only [Server.handleRequest, hreq, h3f]
    simp only [Server.invocations]
    rw [hinv]
    simp [List.count_append]

/-- Witness for C9: a concrete double registration of handler 7 for MESSAGE. -/
theorem onRequest_always_appends_witness :
    ((⟨"MESSAGE", []⟩ : Request).method = "MESSAGE") ∧
    (∃ srv2 srv3,
      Server.OnRequest ⟨0, [], [], [], []⟩ "MESSAGE" 7 = (none, srv2) ∧
      srv2.handlersFor "MESSAGE" =
        some ((Server.handlersFor ⟨0, [], [], [], []⟩ "MESSAGE").getD [] ++ [7]) ∧
      srv2.OnRequest "MESSAGE" 7 = (none, srv3) ∧
      srv3.handlersFor "MESSAGE" =
        some ((Server.handlersFor ⟨0, [], [], [], []⟩ "MESSAGE").getD [] ++ [7] ++ [7]) ∧
      (srv3.invocations ⟨"MESSAGE", []⟩).count 7 =
        ((Server.handlersFor ⟨0, [], [], [], []⟩ "MESSAGE").getD []).count 7 + 2) :=
  ⟨rfl, onRequest_always_appends ⟨0, [], [], [], []⟩ "MESSAGE" 7 ⟨"MESSAGE", []⟩ rfl⟩

/-- C10: on a `MockConn` whose `RAddr` field is nil, `RemoteAddr` calls itself
and never produces a value — no amount of recursion fuel yields a result, so
the call does not terminate (the intended delegation to the embedded
connection, as `LocalAddr` does, is never reached). -/
theorem remoteAddr_diverges_on_nil_raddr (fuel : Nat) :
    MockConn.RemoteAddrFuel fuel ⟨⟨"udp", "1.1.1.1:1"⟩, ⟨"udp", "2.2.2.2:2"⟩, none, none⟩ =
      none := by
  induction fuel with
  | zero => rfl
  | succ k ih => simpa [MockConn.RemoteAddrFuel] using ih

/-- C8: whenever the stream holds at least `n` bytes, `NextChunk(n)` — under
any schedule of base-reader delivery sizes that lets the loop finish —
returns exactly the first `n` bytes and leaves exactly the remainder of the
stream; and a completing schedule always exists. -/
theorem nextChunk_takes_exactly_n (reads stream : List Nat) (n : Nat)
    (hn : n ≤ stream.length) :
    (∀ chunk rest, NextChunk reads stream n = some (chunk, rest) →
      chunk = stream.take n ∧ rest = stream.drop n) ∧
    NextChunk (List.replicate n 1) stream n = some (stream.take n, stream.drop n) := by
  constructor
  · unfold NextChunk
    induction reads generalizing stream n with
    | nil =>
      intro chunk rest hres
      cases n with
      | zero =>
        simp [nextChunkLoop] at hres
        simp [hres.1, hres.2]
      | succ k => simp [nextChunkLoop] at hres
    | cons r rs ih =>
      intro chunk rest hres
      cases n with
      | zero =>
        simp [nextChunkLoop] at hres
        simp [hres.1, hres.2]
      | succ k =>
        simp only [nextChunkLoop] at hres
        by_cases hk0 : readStep r (k + 1) stream.length = 0
        · simp [hk0] at hres
        · simp only [hk0, if_neg, not_false_iff] at hres
          cases hrec : nextChunkLoop rs (stream.drop (readStep r (k + 1) stream.length))
              (k + 1 - readStep r (k + 1) stream.length) with
          | none =>
            rw [hrec] at hres
            simp at hres
          | some p =>
            obtain ⟨c, rest2⟩ := p
            rw [hrec] at hres
            simp at hres
            have hkle : readStep r (k + 1) stream.length ≤ k + 1 := by
              unfold readStep
              exact le_trans (Nat.min_le_left _ _) (Nat.min_le_right _ _)
            have hlen : k + 1 - readStep r (k + 1) stream.length ≤
                (stream.drop (readStep r (k + 1) stream.length)).length := by
              rw [List.length_drop]
              omega
            obtain ⟨hc, hr⟩ := ih (stream.drop (readStep r (k + 1) stream.length))
              (k + 1 - readStep r (k + 1) stream.length) hlen c rest2 hrec
            constructor
            · rw [← hres.1, hc]
              have hsum : k + 1 = readStep r (k + 1) stream.length +
                  (k + 1 - readStep r (k + 1) stream.length) := by omega
              have htake : List.take (k + 1) stream =
                  List.take (readStep r (k + 1) stream.length) stream ++
                    (List.drop (readStep r (k + 1) stream.length) stream).take
                      (k + 1 - readStep r (k + 1) stream.length) := by
                conv_lhs => rw [hsum]
                rw [List.take_add]
              exact htake.symm
            · rw [← hres.2, hr, List.drop_drop]
              congr 1
              omega
  · induction n generalizing stream with
    | zero => simp [NextChunk, nextChunkLoop]
    | succ k ih =>
      have hlen1 : 1 ≤ stream.length := le_trans (Nat.le_add_left 1 k) hn
      have hstep : readStep 1 (k + 1) stream.length = 1 := by
        unfold readStep
        rw [show max 1 1 = 1 from rfl,
          Nat.min_eq_left (Nat.succ_le_succ (Nat.zero_le k)),
          Nat.min_eq_left hlen1]
      have hrec := ih (stream.drop 1) (by rw [List.length_drop]; omega)
      unfold NextChunk at hrec ⊢
      rw [List.replicate_succ]
      simp only [nextChunkLoop, hstep]
      rw [show k + 1 - 1 = k from rfl, hrec]
      rw [if_neg one_ne_zero]
      have ht : stream.take 1 ++ (stream.drop 1).take k = stream.take (k + 1) := by
        rw [show k + 1 = 1 + k from Nat.add_comm k 1, List.take_add]
      have hd : (stream.drop 1).drop k = stream.drop (k + 1) := by
        rw [List.drop_drop]
        congr 1
        omega
      simp [hd]
      rw [← List.drop_one]
      exact ht

/-- Witness for C8 at a concrete stream and schedule. -/
theorem nextChunk_takes_exactly_n_witness :
    ((4 : Nat) ≤ ([10, 20, 30, 40, 50] : List Nat).length) ∧
    ((∀ chunk rest, NextChunk [2, 3] [10, 20, 30, 40, 50] 4 = some (chunk, rest) →
        chunk = ([10, 20, 30, 40, 50] : List Nat).take 4 ∧
        rest = ([10, 20, 30, 40, 50] : List Nat).drop 4) ∧
      NextChunk (List.replicate 4 1) [10, 20, 30, 40, 50] 4 =
        some (([10, 20, 30, 40, 50] : List Nat).take 4,
          ([10, 20, 30, 40, 50] : List Nat).drop 4)) :=
  ⟨by decide, nextChunk_takes_exactly_n [2, 3] [10, 20, 30, 40, 50] 4 (by decide)⟩

theorem newResponse_no_allow (req : Request) (code : Nat) (reason : String) :
    (NewResponseFromRequest req code reason).GetHeaders "Allow" = [] := by
  unfold NewResponseFromRequest Response.GetHeaders getHeadersByName
  simp only []
  rw [List.filter_filter]
  apply List.filter_eq_nil_iff.mpr
  intro h hmem
  by_cases hs : h.name = "Allow"
  · simp [hs]
  · simp [hs]

theorem prepareResponse_statusCode (srv : Server) (res : Response) :
    (srv.prepareResponse res).statusCode = res.statusCode := by
  unfold Server.prepareResponse
  cases hcv : res.cseqValue with
  | none => rfl
  | some c =>
    by_cases hc : (c.methodName == OPTIONS) = true
    · simp only [hc, if_true]
      split <;> split <;> rfl
    · simp only [Bool.not_eq_true] at hc
      simp [hc]

theorem prepareResponse_non_options (srv : Server) (res : Response)
    (h : ∀ c, res.cseqValue = some c → c.methodName ≠ OPTIONS) :
    srv.prepareResponse res = res := by
  unfold Server.prepareResponse
  cases hcv : res.cseqValue with
  | none => rfl
  | some c =>
    have hb : (c.methodName == OPTIONS) = false := by
      simp only [beq_eq_false_iff_ne, ne_eq]
      exact h c hcv
    simp [hb]

theorem prepareResponse_allow_of_options (srv : Server) (res : Response) (c : CSeqValue)
    (hcv : res.cseqValue = some c) (hopt : c.methodName = OPTIONS) :
    ((srv.prepareResponse res).GetHeaders "Allow").head? =
      some (.generic "Allow" (String.intercalate ", " srv.getAllowedMethods)) := by
  have hb : (c.methodName == OPTIONS) = true := by simp [hopt]
  have hstep : ∀ r : Response,
      ((r.GetHeaders "Allow").head? =
        some (.generic "Allow" (String.intercalate ", " srv.getAllowedMethods))) →
      (((if (r.GetHeaders "Supported").isEmpty then
            r.AppendHeader (.supported srv.extensions)
          else { r with headers := (setFirstHeader r.headers "Supported"
            (.supported srv.extensions)) }).GetHeaders "Allow").head?) =
        some (.generic "Allow" (String.intercalate ", " srv.getAllowedMethods)) := by
    intro r hr
    split
    · rw [getHeaders_appendHeader_response]
      rw [show ((Header.supported srv.extensions).name == "Allow") = false from rfl]
      simp only [Bool.false_eq_true, if_false, List.append_nil]
      exact hr
    · show ((getHeadersByName (setFirstHeader r.headers "Supported"
        (.supported srv.extensions)) "Allow").head?) = _
      rw [getHeaders_setFirstHeader_ne r.headers "Supported" "Allow"
        (.supported srv.extensions) rfl (by decide)]
      exact hr
  have hA : (((if (res.GetHeaders "Allow").isEmpty then
      res.AppendHeader (.generic "Allow" (String.intercalate ", " srv.getAllowedMethods))
      else { res with headers := (setFirstHeader res.headers "Allow"
        (.generic "Allow" (String.intercalate ", " srv.getAllowedMethods))) }).GetHeaders
      "Allow").head?) =
      some (.generic "Allow" (String.intercalate ", " srv.getAllowedMethods)) := by
    split
    case isTrue hAe =>
      rw [getHeaders_appendHeader_response]
      have hnil : res.GetHeaders "Allow" = [] := by
        rwa [List.isEmpty_iff] at hAe
      rw [hnil]
      rw [show ((Header.generic "Allow"
        (String.intercalate ", " srv.getAllowedMethods)).name == "Allow") = true from rfl]
      simp
    case isFalse hAe =>
      have hne : getHeadersByName res.headers "Allow" ≠ [] := by
        intro hnil
        apply hAe
        show (res.GetHeaders "Allow").isEmpty = true
        rw [show res.GetHeaders "Allow" = getHeadersByName res.headers "Allow" from rfl, hnil]
        rfl
      exact getHeaders_setFirstHeader_head res.headers "Allow" _ rfl hne
  unfold Server.prepareResponse
  rw [hcv]
  simp only [hb, if_true]
  exact hstep _ hA

/-- C1, amended: an inbound request whose method has no registered handler
and which is not an ACK is answered with a 405 Method Not Allowed built from
the request; the sent (prepared) response carries an Allow header exactly
when the request's CSeq method is OPTIONS — for every other method the 405
goes out without an Allow header. -/
theorem handleRequest_unmatched_405 (srv : Server) (req : Request)
    (hno : srv.handlersFor req.method = none) (hack : req.IsAck = false) :
    srv.handleRequest req =
      .respond (NewResponseFromRequest req 405 "Method Not Allowed") ∧
    (srv.prepareResponse (NewResponseFromRequest req 405 "Method Not Allowed")).statusCode
      = 405 ∧
    (∀ c, (NewResponseFromRequest req 405 "Method Not Allowed").cseqValue = some c →
      c.methodName = OPTIONS →
      ((srv.prepareResponse (NewResponseFromRequest req 405 "Method Not Allowed")).GetHeaders
        "Allow") ≠ []) ∧
    ((∀ c, (NewResponseFromRequest req 405 "Method Not Allowed").cseqValue = some c →
        c.methodName ≠ OPTIONS) →
      ((srv.prepareResponse (NewResponseFromRequest req 405 "Method Not Allowed")).GetHeaders
        "Allow") = []) := by
  refine ⟨?_, ?_, ?_, ?_⟩
  · simp [Server.handleRequest, hno, hack]
  · rw [prepareResponse_statusCode]
    rfl
  · intro c hcv hopt
    rw [← List.head?_isSome]
    rw [prepareResponse_allow_of_options srv _ c hcv hopt]
    rfl
  · intro hnone
    rw [prepareResponse_non_options srv _ hnone]
    exact newResponse_no_allow req 405 "Method Not Allowed"

/-- Witness for C1 (amended) at a concrete handler-less server and MESSAGE
request. -/
theorem handleRequest_unmatched_405_witness :
    (Server.handlersFor ⟨0, [], [], [], []⟩ "MESSAGE" = none) ∧
    ((⟨"MESSAGE", [.cseq ⟨1, "MESSAGE"⟩]⟩ : Request).IsAck = false) ∧
    (Server.handleRequest ⟨0, [], [], [], []⟩ ⟨"MESSAGE", [.cseq ⟨1, "MESSAGE"⟩]⟩ =
      .respond (NewResponseFromRequest ⟨"MESSAGE", [.cseq ⟨1, "MESSAGE"⟩]⟩ 405
        "Method Not Allowed")) := by
  refine ⟨rfl, rfl, ?_⟩
  exact (handleRequest_unmatched_405 ⟨0, [], [], [], []⟩
    ⟨"MESSAGE", [.cseq ⟨1, "MESSAGE"⟩]⟩ rfl rfl).1

/-- Counterexample for C1 as stated: a handler-less server answering an INFO
request replies 405, but the prepared (sent) response carries no Allow
header, because the Allow auto-append in `prepareResponse` fires only for an
OPTIONS CSeq. -/
theorem handleRequest_405_no_allow_cex :
    Server.handleRequest ⟨0, [], [], [], []⟩ ⟨"INFO", [.cseq ⟨1, "INFO"⟩]⟩ =
      .respond (NewResponseFromRequest ⟨"INFO", [.cseq ⟨1, "INFO"⟩]⟩ 405
        "Method Not Allowed") ∧
    (Server.prepareResponse ⟨0, [], [], [], []⟩
      (NewResponseFromRequest ⟨"INFO", [.cseq ⟨1, "INFO"⟩]⟩ 405
        "Method Not Allowed")).statusCode = 405 ∧
    (Server.prepareResponse ⟨0, [], [], [], []⟩
      (NewResponseFromRequest ⟨"INFO", [.cseq ⟨1, "INFO"⟩]⟩ 405
        "Method Not Allowed")).GetHeaders "Allow" = [] := by
  refine ⟨rfl, rfl, rfl⟩

/-- C4: the computed allowed-method list is the registered methods together
with INVITE, ACK and CANCEL (as a set), has no duplicates and contains those
three; the prepared 200 OK answering an OPTIONS request carries an Allow
header whose contents are exactly the comma-joined allowed-method list. -/
theorem getAllowedMethods_spec (srv : Server) (res : Response) (c : CSeqValue)
    (hnd : (srv.requestHandlers.map Prod.fst).Nodup)
    (hcv : res.cseqValue = some c) (hopt : c.methodName = OPTIONS)
    (hstatus : res.statusCode = 200) :
    srv.getAllowedMethods.Nodup ∧
    (∀ m, m ∈ srv.getAllowedMethods ↔
      (m = INVITE ∨ m = ACK ∨ m = CANCEL ∨ m ∈ srv.requestHandlers.map Prod.fst)) ∧
    INVITE ∈ srv.getAllowedMethods ∧ ACK ∈ srv.getAllowedMethods ∧
    CANCEL ∈ srv.getAllowedMethods ∧
    (srv.prepareResponse res).statusCode = 200 ∧
    ((srv.prepareResponse res).GetHeaders "Allow").head? =
      some (.generic "Allow" (String.intercalate ", " srv.getAllowedMethods)) := by
  have hiff : ∀ m, m ∈ srv.getAllowedMethods ↔
      (m = INVITE ∨ m = ACK ∨ m = CANCEL ∨ m ∈ srv.requestHandlers.map Prod.fst) := by
    intro m
    simp only [Server.getAllowedMethods, List.mem_append, List.mem_filter,
      List.mem_cons, List.not_mem_nil, or_false]
    constructor
    · rintro ((h | h | h) | ⟨hk, _⟩) <;> tauto
    · rintro (h | h | h | hk)
      · exact Or.inl (Or.inl h)
      · exact Or.inl (Or.inr (Or.inl h))
      · exact Or.inl (Or.inr (Or.inr h))
      · by_cases hI : m = INVITE
        · exact Or.inl (Or.inl hI)
        · by_cases hA : m = ACK
          · exact Or.inl (Or.inr (Or.inl hA))
          · by_cases hC : m = CANCEL
            · exact Or.inl (Or.inr (Or.inr hC))
            · refine Or.inr ⟨hk, ?_⟩
              simp only [Bool.not_eq_true', Bool.or_eq_false_iff, beq_eq_false_iff_ne, ne_eq]
              exact ⟨⟨hI, hA⟩, hC⟩
  refine ⟨?_, hiff, (hiff INVITE).mpr (Or.inl rfl),
    (hiff ACK).mpr (Or.inr (Or.inl rfl)),
    (hiff CANCEL).mpr (Or.inr (Or.inr (Or.inl rfl))), ?_, ?_⟩
  · unfold Server.getAllowedMethods
    apply List.Nodup.append
    · decide
    · exact hnd.filter _
    · intro a ha hb
      have hpred := List.of_mem_filter hb
      simp only [Bool.not_eq_true', Bool.or_eq_false_iff, beq_eq_false_iff_ne] at hpred
      simp only [List.mem_cons, List.not_mem_nil, or_false] at ha
      rcases ha with h | h | h
      · exact hpred.1.1 h
      · exact hpred.1.2 h
      · exact hpred.2 h
  · rw [prepareResponse_statusCode]
    exact hstatus
  · exact prepareResponse_allow_of_options srv res c hcv hopt

/-- Witness for C4 at a concrete server with a MESSAGE handler registered and
a 200 OK response to an OPTIONS request. -/
theorem getAllowedMethods_spec_witness :
    ((Server.requestHandlers ⟨0, [("MESSAGE", [5])], [], [], []⟩).map Prod.fst).Nodup ∧
    (Server.getAllowedMethods ⟨0, [("MESSAGE", [5])], [], [], []⟩).Nodup ∧
    (Server.prepareResponse ⟨0, [("MESSAGE", [5])], [], [], []⟩
      ⟨200, "OK", [.cseq ⟨1, "OPTIONS"⟩]⟩).statusCode = 200 ∧
    ((Server.prepareResponse ⟨0, [("MESSAGE", [5])], [], [], []⟩
      ⟨200, "OK", [.cseq ⟨1, "OPTIONS"⟩]⟩).GetHeaders "Allow").head? =
      some (.generic "Allow" (String.intercalate ", "
        (Server.getAllowedMethods ⟨0, [("MESSAGE", [5])], [], [], []⟩))) := by
  have h := getAllowedMethods_spec ⟨0, [("MESSAGE", [5])], [], [], []⟩
    ⟨200, "OK", [.cseq ⟨1, "OPTIONS"⟩]⟩ ⟨1, "OPTIONS"⟩ (by decide) rfl rfl rfl
  exact ⟨by decide, h.1, h.2.2.2.2.2.1, h.2.2.2.2.2.2⟩

/-- C6, amended: `connection.Close` keeps no closed-flag of its own and
simply forwards to the base socket: on an open socket the first `Close`
succeeds, but a second `Close` returns a wrapped error because the base
socket rejects a double close — `Close` is not idempotent by itself. -/
theorem connection_close_mirrors_base (conn : Connection)
    (hopen : conn.base.closed = false) :
    (conn.Close).1 = none ∧
    (conn.Close).2 = { conn with base := ⟨true⟩ } ∧
    ((conn.Close).2.Close).1 =
      some ⟨"use of closed network connection", "close", conn.network, "", "",
        conn.connId⟩ := by
  refine ⟨?_, ?_, ?_⟩ <;>
    simp [Connection.Close, netConnClose, hopen]

/-- Witness for C6 (amended) at a concrete open connection. -/
theorem connection_close_mirrors_base_witness :
    ((⟨⟨false⟩, "UDP", "l", "r", "id"⟩ : Connection).base.closed = false) ∧
    ((Connection.Close ⟨⟨false⟩, "UDP", "l", "r", "id"⟩).1 = none ∧
     (Connection.Close ⟨⟨false⟩, "UDP", "l", "r", "id"⟩).2 =
       { (⟨⟨false⟩, "UDP", "l", "r", "id"⟩ : Connection) with base := ⟨true⟩ } ∧
     ((Connection.Close ⟨⟨false⟩, "UDP", "l", "r", "id"⟩).2.Close).1 =
       some ⟨"use of closed network connection", "close", "UDP", "", "", "id"⟩) :=
  ⟨rfl, connection_close_mirrors_base ⟨⟨false⟩, "UDP", "l", "r", "id"⟩ rfl⟩

/-- Counterexample for C6 as stated: on a concrete connection the first
`Close` succeeds but the second returns an error, so a second `Close` after a
successful one does not succeed. -/
theorem connection_close_second_call_errors_cex :
    (Connection.Close ⟨⟨false⟩, "UDP", "127.0.0.1:5060", "10.0.0.1:5060", "conn1"⟩).1 =
      none ∧
    ((Connection.Close
      ⟨⟨false⟩, "UDP", "127.0.0.1:5060", "10.0.0.1:5060", "conn1"⟩).2.Close).1 ≠ none := by
  refine ⟨rfl, ?_⟩
  intro h
  simp [Connection.Close, netConnClose] at h

/-- C7, amended: errors from `Read`, `ReadFrom`, `Write` and `WriteTo` wrap
the cause with the full `{op, network, raddr, laddr, connection-id}` context
(`ReadFrom`/`WriteTo` with the per-datagram address); a `Close` error wraps
the cause with the operation, network and connection identifier but with
empty strings in the remote- and local-address slots. -/
theorem connection_errors_context (conn : Connection) (n : Nat) (raddr e : String)
    (hclosed : conn.base.closed = true) :
    (∀ err, (conn.Read (n, some e)).2 = some err →
      wrapsFullContext err conn "read" conn.raddr e) ∧
    (∀ err, (conn.ReadFrom (n, raddr, some e)).2.2 = some err →
      wrapsFullContext err conn "read" raddr e) ∧
    (∀ err, (conn.Write (n, some e)).2 = some err →
      wrapsFullContext err conn "write" conn.raddr e) ∧
    (∀ err, (conn.WriteTo raddr (n, some e)).2 = some err →
      wrapsFullContext err conn "write" raddr e) ∧
    (conn.Close).1 =
      some ⟨"use of closed network connection", "close", conn.network, "", "",
        conn.connId⟩ := by
  refine ⟨?_, ?_, ?_, ?_, ?_⟩
  · intro err herr
    simp only [Connection.Read, Option.some.injEq] at herr
    subst herr
    exact ⟨rfl, rfl, rfl, rfl, rfl, rfl⟩
  · intro err herr
    simp only [Connection.ReadFrom, Option.some.injEq] at herr
    subst herr
    exact ⟨rfl, rfl, rfl, rfl, rfl, rfl⟩
  · intro err herr
    simp only [Connection.Write, Option.some.injEq] at herr
    subst herr
    exact ⟨rfl, rfl, rfl, rfl, rfl, rfl⟩
  · intro err herr
    simp only [Connection.WriteTo, Option.some.injEq] at herr
    subst herr
    exact ⟨rfl, rfl, rfl, rfl, rfl, rfl⟩
  · simp [Connection.Close, netConnClose, hclosed]

/-- Witness for C7 (amended) at a concrete closed connection. -/
theorem connection_errors_context_witness :
    ((⟨⟨true⟩, "UDP", "l", "r", "id"⟩ : Connection).base.closed = true) ∧
    (∀ err, (Connection.Read ⟨⟨true⟩, "UDP", "l", "r", "id"⟩ (0, some "boom")).2 =
        some err →
      wrapsFullContext err ⟨⟨true⟩, "UDP", "l", "r", "id"⟩ "read" "r" "boom") ∧
    (Connection.Close ⟨⟨true⟩, "UDP", "l", "r", "id"⟩).1 =
      some ⟨"use of closed network connection", "close", "UDP", "", "", "id"⟩ :=
  ⟨rfl,
   (connection_errors_context ⟨⟨true⟩, "UDP", "l", "r", "id"⟩ 0 "x" "boom" rfl).1,
   (connection_errors_context ⟨⟨true⟩, "UDP", "l", "r", "id"⟩ 0 "x" "boom" rfl).2.2.2.2⟩

/-- Counterexample for C7 as stated: the error returned by `Close` on a
concrete connection does not carry the connection's remote and local
addresses — those context slots are empty strings. -/
theorem connection_close_error_lacks_addrs_cex :
    (Connection.Close ⟨⟨true⟩, "UDP", "127.0.0.1:5060", "10.0.0.1:5060", "conn1"⟩).1 =
      some ⟨"use of closed network connection", "close", "UDP", "", "", "conn1"⟩ ∧
    ¬ wrapsFullContext
        ⟨"use of closed network connection", "close", "UDP", "", "", "conn1"⟩
        ⟨⟨true⟩, "UDP", "127.0.0.1:5060", "10.0.0.1:5060", "conn1"⟩ "close"
        "10.0.0.1:5060" "use of closed network connection" := by
  constructor
  · rfl
  · intro h
    have := h.2.2.2.1
    simp at this

end Gosip
